import Mathlib

/-!
Verification of the transaction-retry and cursor-iteration core of the
go-indexeddb library (packages `idb` and `durable`).

The Go code is shallowly embedded: Go `error` values become an inductive
`GoErr` (the sentinel `ErrCursorStopIter` plus message-carrying errors),
`nil`-able errors become `Option GoErr`, and every interaction with the
JavaScript/IndexedDB host is parametrised by an explicit script of host
responses, consumed deterministically by the embedded control flow.  Loops
that are unbounded in Go (`for { ... }` retry loops, cursor iteration)
recurse structurally on the script; an exhausted script yields `none`,
meaning the Go loop would still be running.
-/

namespace GoIndexedDB

/-- A Go `error` value that is not nil.  `stopIter` is the sentinel
`ErrCursorStopIter` from `request.go` (compared by identity in Go);
`mk s` is any other error whose `Error()` message is `s`. -/
inductive GoErr where
  | stopIter : GoErr
  | mk : String → GoErr
deriving DecidableEq, Repr

/-- A Go `error` variable: `none` is `nil`. -/
abbrev GoError := Option GoErr

/-- `Error()` message of an error. `ErrCursorStopIter = errors.New("stop cursor iteration")`. -/
def GoErr.message : GoErr → String
  | .stopIter => "stop cursor iteration"
  | .mk s => s

/-- `strings.HasSuffix(s, suffix)` from the Go standard library, on the
character sequences of the two strings. -/
def hasSuffix (s suffix : String) : Bool :=
  suffix.data.isSuffixOf s.data

/-- `IsTxnFinishedErr` from `idb/retry.go`: a nil error is not a
transaction-finished error; otherwise the message is tested for the two
literal suffixes. -/
def IsTxnFinishedErr : GoError → Bool
  | none => false
  | some e =>
    if hasSuffix (GoErr.message e) "The transaction has finished." then true
    else if hasSuffix (GoErr.message e) "The database connection is closing." then true
    else false

/-- `IsTxnFinishedErr` on Go `nil`. -/
theorem isTxnFinishedErr_nil : IsTxnFinishedErr none = false := rfl

/-- `TransactionMode` from `idb/transaction.go`. -/
inductive TransactionMode where
  | readOnly : TransactionMode
  | readWrite : TransactionMode
deriving DecidableEq, Repr

/-! ### `RetryTxn` (idb/retry.go)

One loop iteration of `RetryTxn` performs up to three host interactions:
`db.Transaction(...)`, the unit of work `fn(txn)`, and `txn.Commit()`.
A `RetryAttempt` records the host's (and `fn`'s) responses for one
iteration; `RetryTxn` is run against a list of such attempts. -/

/-- Host/unit-of-work responses for one iteration of the `RetryTxn` loop. -/
structure RetryAttempt where
  txnErr : GoError
  fnErr : GoError
  commitErr : GoError
deriving DecidableEq, Repr

/-- Observable outcome of a terminating `RetryTxn` run: the returned error,
how many times `fn` ran, the argument list of every `db.Transaction` call
made (mode and store names, in order), and whether `txn.Abort()` /
`txn.Commit()` were invoked. -/
structure RetryResult where
  ret : GoError
  fnRuns : Nat
  txnCalls : List (TransactionMode × List String)
  abortCalled : Bool
  commitCalled : Bool
deriving DecidableEq, Repr

/-- The `RetryTxn` loop from `idb/retry.go`, lines 26–63, with the store
name list already assembled as `objectStoreName :: objectStoreNames`.
`none` means the script ended while the loop was still retrying. -/
def retryTxnLoop (mode : TransactionMode) (names : List String) :
    List RetryAttempt → Option RetryResult
  | [] => none
  | a :: rest =>
    match a.txnErr with
    | some e => some ⟨some e, 0, [(mode, names)], false, false⟩
    | none =>
      if IsTxnFinishedErr a.fnErr then
        match retryTxnLoop mode names rest with
        | none => none
        | some r =>
          some ⟨r.ret, r.fnRuns + 1, (mode, names) :: r.txnCalls, r.abortCalled, r.commitCalled⟩
      else
        match a.fnErr with
        | some e => some ⟨some e, 1, [(mode, names)], true, false⟩
        | none =>
          some ⟨if IsTxnFinishedErr a.commitErr then none else a.commitErr,
                1, [(mode, names)], false, true⟩

/-- `RetryTxn(ctx, db, txnMode, fn, objectStoreName, objectStoreNames...)`. -/
def RetryTxn (mode : TransactionMode) (objectStoreName : String)
    (objectStoreNames : List String) (script : List RetryAttempt) : Option RetryResult :=
  retryTxnLoop mode (objectStoreName :: objectStoreNames) script

/-! ### Durable transactions (durable/tx.go, durable/durable.go)

Host transaction and object-store handles are modelled by explicit ids;
Go pointer identity of a `DurableObjectStore` wrapper is modelled by a
`wid` field fixed at construction. -/

/-- A live `idb.Transaction` handle: its host id, and the mode and store
names it was opened over. -/
structure Txn where
  id : Nat
  mode : TransactionMode
  names : List String
deriving DecidableEq, Repr

/-- An `idb.ObjectStore` handle, identified by the transaction it was
obtained from and its store name. -/
structure IdbObjectStore where
  txnId : Nat
  name : String
deriving DecidableEq, Repr

/-- Modelled from the spec: the body of `idb.Transaction.ObjectStore` is not
in the sources (only its godoc declaration).  Per §6 of the spec it maps a
transaction handle and a store name to a store handle, failing when the name
is not part of the transaction's scope. -/
def Txn.objectStore (t : Txn) (name : String) : Except GoErr IdbObjectStore :=
  if name ∈ t.names then .ok ⟨t.id, name⟩
  else .error (.mk ("object store not found: " ++ name))

/-- `DurableObjectStore` from `durable/durable.go` (the back-pointer `dt` is
implicit in the enclosing `DurableTransaction`; `wid` models the Go pointer
identity of the wrapper allocated in `NewDurableTransaction`). -/
structure DurableObjectStore where
  wid : Nat
  name : String
  store : IdbObjectStore
deriving DecidableEq, Repr

/-- `DurableTransaction` from `durable/tx.go`.  The Go
`map[string]*DurableObjectStore` is an association list keyed by name. -/
structure DurableTransaction where
  txnMode : TransactionMode
  objectStoreNames : List String
  txn : Option Txn
  objectStores : List (String × DurableObjectStore)
deriving DecidableEq, Repr

/-- The rebinding loop inside `ensureTransaction` (durable/tx.go lines
113–119): for each wrapper, look up its store in the new transaction and
swap the `store` field in place; on a lookup error stop, leaving the
remaining wrappers untouched, and report the error. -/
def rebindStores (txn : Txn) :
    List (String × DurableObjectStore) → GoError × List (String × DurableObjectStore)
  | [] => (none, [])
  | (n, w) :: rest =>
    match Txn.objectStore txn n with
    | .error e => (some e, (n, w) :: rest)
    | .ok s =>
      let (err, rest') := rebindStores txn rest
      (err, (n, { w with store := s }) :: rest')

/-- `ensureTransaction` (durable/tx.go lines 102–122).  `txnOutcome` is the
host's response to `db.Transaction(t.txnMode, t.objectStoreNames...)`: an
error, or the id of a fresh transaction handle (opened over exactly the
mode and names passed, per §6 of the spec).  Returns the Go error and the
updated receiver state. -/
def ensureTransaction (t : DurableTransaction) (txnOutcome : Except GoErr Nat) :
    GoError × DurableTransaction :=
  match t.txn with
  | some _ => (none, t)
  | none =>
    match txnOutcome with
    | .error e => (some e, t)
    | .ok newId =>
      let txn : Txn := ⟨newId, t.txnMode, t.objectStoreNames⟩
      let (err, stores') := rebindStores txn t.objectStores
      (err, { t with txn := some txn, objectStores := stores' })

/-- `DurableTransaction.GetObjectStore` (durable/tx.go lines 57–63). -/
def DurableTransaction.GetObjectStore (t : DurableTransaction) (name : String) :
    Except GoErr DurableObjectStore :=
  match t.objectStores.lookup name with
  | none => .error (.mk "object store not available in this txn")
  | some w => .ok w

/-- `DurableTransaction.Abort` (durable/tx.go lines 69–83).  `hostErr` is the
result of the host `txn.Abort()` call, consulted only when a live
transaction exists.  Returns `((didSomething, err), updated state)`. -/
def DurableTransaction.Abort (t : DurableTransaction) (hostErr : GoError) :
    (Bool × GoError) × DurableTransaction :=
  match t.txn with
  | none => ((false, none), t)
  | some _ =>
    let t' := { t with txn := none }
    match hostErr with
    | none => ((true, none), t')
    | some e =>
      if IsTxnFinishedErr (some e) then ((false, none), t')
      else ((false, some e), t')

/-- `DurableTransaction.Commit` (durable/tx.go lines 88–99).  `hostErr` is
the result of the host `txn.Commit()` call, consulted only when a live
transaction exists. -/
def DurableTransaction.Commit (t : DurableTransaction) (hostErr : GoError) :
    GoError × DurableTransaction :=
  match t.txn with
  | none => (none, t)
  | some _ =>
    ((if IsTxnFinishedErr hostErr then none else hostErr), { t with txn := none })

/-- Host responses for one iteration of the `runWithRetry` loop:
`txnOutcome` is consumed by `ensureTransaction` when no live transaction
exists, and `fnErr` is the unit of work's result for this attempt. -/
structure DurableAttempt where
  txnOutcome : Except GoErr Nat
  fnErr : GoError
deriving Repr

/-- `runWithRetry` (durable/durable.go lines 127–145; identical to
`TxnWithRetry` in durable/tx.go lines 125–143): ensure a live transaction,
run `fn`; succeed on nil, propagate a non-recoverable error directly, and
on a recoverable transaction-finished error clear the live transaction and
retry.  `none` means the script ended while the loop was still retrying. -/
def runWithRetry (t : DurableTransaction) :
    List DurableAttempt → Option (GoError × DurableTransaction)
  | [] => none
  | a :: rest =>
    match ensureTransaction t a.txnOutcome with
    | (some e, t1) => some (some e, t1)
    | (none, t1) =>
      match a.fnErr with
      | none => some (none, t1)
      | some ferr =>
        if IsTxnFinishedErr (some ferr) then
          runWithRetry { t1 with txn := none } rest
        else
          some (some ferr, t1)

/-! ### Cursors (idb/cursor.go) and the iteration loop (idb/request.go) -/

/-- A `safejs.Value` passed through the bridge, abstracted to an id. -/
abbrev JSValue := Nat

/-- `Cursor` from `idb/cursor.go`: of its fields only the `iterated` flag
(set by the movement methods, reset for each freshly wrapped cursor) drives
the iteration loop's control flow. -/
structure Cursor where
  iterated : Bool
deriving DecidableEq, Repr

/-- `wrapCursor` (idb/cursor.go lines 75–80): a fresh wrapper, `iterated`
starting at Go's zero value `false`. -/
def wrapCursor : Cursor :=
  { iterated := false }

/-- `Cursor.Advance` (idb/cursor.go lines 131–135): sets `iterated` and
issues the host `advance` call, whose error is `hostErr`. -/
def Cursor.Advance (c : Cursor) (count : Nat) (hostErr : GoError) : Cursor × GoError :=
  let _ := count
  ({ c with iterated := true }, hostErr)

/-- `Cursor.Continue` (idb/cursor.go lines 138–142): sets `iterated` and
issues the host `continue` call, whose error is `hostErr`. -/
def Cursor.Continue (c : Cursor) (hostErr : GoError) : Cursor × GoError :=
  ({ c with iterated := true }, hostErr)

/-- `Cursor.ContinueKey` (idb/cursor.go lines 145–149). -/
def Cursor.ContinueKey (c : Cursor) (key : JSValue) (hostErr : GoError) : Cursor × GoError :=
  let _ := key
  ({ c with iterated := true }, hostErr)

/-- `Cursor.ContinuePrimaryKey` (idb/cursor.go lines 152–156). -/
def Cursor.ContinuePrimaryKey (c : Cursor) (key primaryKey : JSValue) (hostErr : GoError) :
    Cursor × GoError :=
  let _ := (key, primaryKey)
  ({ c with iterated := true }, hostErr)

/-- Host and callback behaviour for one iteration of `cursorIter`:
`awaited` is the `req.AwaitCursor(ctx)` outcome (an error, `none` for the
host's null cursor on exhaustion, or a present cursor); `cb` is the action
of the caller's step function on the freshly wrapped cursor (it may invoke
movement methods, which set `iterated`); `contErr` is the host response to
the implicit `cursor.Continue()`, when one is issued. -/
structure IterStep where
  awaited : Except GoErr (Option Unit)
  cb : Cursor → Cursor × GoError
  contErr : GoError

/-- Observable outcome of a terminating `cursorIter` run: the returned
error, the number of callback invocations, and the number of implicit
default `Continue` calls the loop issued. -/
structure IterResult where
  ret : GoError
  cbCalls : Nat
  autoContinues : Nat
deriving DecidableEq, Repr

/-- `cursorIter` (idb/request.go lines 348–371), the loop behind both
`CursorRequest.Iter` and `CursorWithValueRequest.Iter`: await the next
position; stop with nil on a null cursor; run the callback; a
`ErrCursorStopIter` result stops with nil, any other error is returned;
otherwise, if the callback did not move the cursor, issue one default
`Continue` (returning its error if it fails) before awaiting again.
`none` means the script ended while the loop was still iterating. -/
def cursorIter : List IterStep → Option IterResult
  | [] => none
  | s :: rest =>
    match s.awaited with
    | .error e => some ⟨some e, 0, 0⟩
    | .ok none => some ⟨none, 0, 0⟩
    | .ok (some _) =>
      let (c1, cbErr) := s.cb wrapCursor
      match cbErr with
      | some e =>
        if e = .stopIter then some ⟨none, 1, 0⟩
        else some ⟨some e, 1, 0⟩
      | none =>
        if !c1.iterated then
          match (Cursor.Continue c1 s.contErr).2 with
          | some e => some ⟨some e, 1, 1⟩
          | none =>
            match cursorIter rest with
            | none => none
            | some r => some ⟨r.ret, r.cbCalls + 1, r.autoContinues + 1⟩
        else
          match cursorIter rest with
          | none => none
          | some r => some ⟨r.ret, r.cbCalls + 1, r.autoContinues⟩

/-! ### A representative durable data operation: `DurableObjectStore.Get` -/

/-- Host responses for one attempt of `DurableObjectStore.Get`
(durable/durable.go lines 206–221): the `ensureTransaction` outcome, the
error from creating the request with `d.store.Get(key)`, and the
`req.Await(ctx)` outcome (an error or the retrieved value). -/
structure GetAttempt where
  txnOutcome : Except GoErr Nat
  reqErr : GoError
  awaitResult : Except GoErr JSValue
deriving Repr

/-- The body of the closure `Get` passes to `runWithRetry`: request
creation error, else await error, else success with the awaited value. -/
def getFnResult (a : GetAttempt) : GoError × Option JSValue :=
  match a.reqErr with
  | some e => (some e, none)
  | none =>
    match a.awaitResult with
    | .error e => (some e, none)
    | .ok v => (none, some v)

/-- The `runWithRetry` loop as inlined in `DurableObjectStore.Get`:
`value` is the captured `var value safejs.Value`, assigned only on a fully
successful attempt. -/
def durableGetLoop (t : DurableTransaction) (value : Option JSValue) :
    List GetAttempt → Option ((Option JSValue × GoError) × DurableTransaction)
  | [] => none
  | a :: rest =>
    match ensureTransaction t a.txnOutcome with
    | (some e, t1) => some ((value, some e), t1)
    | (none, t1) =>
      match getFnResult a with
      | (none, v) => some ((v, none), t1)
      | (some ferr, _) =>
        if IsTxnFinishedErr (some ferr) then
          durableGetLoop { t1 with txn := none } value rest
        else
          some ((value, some ferr), t1)

/-- `DurableObjectStore.Get` (durable/durable.go lines 206–221): runs its
closure under `runWithRetry` and returns the captured value with the error. -/
def DurableObjectStore.Get (t : DurableTransaction) (script : List GetAttempt) :
    Option ((Option JSValue × GoError) × DurableTransaction) :=
  durableGetLoop t none script

/-! ## Theorems -/

/-- C3: `IsTxnFinishedErr err` is true exactly when `err` is non-nil and its
message ends with `"The transaction has finished."` or
`"The database connection is closing."`; in particular it is false for nil
and for every message lacking both suffixes. -/
theorem isTxnFinishedErr_suffix_characterisation (e : GoError) :
    IsTxnFinishedErr e = true ↔
      ∃ err, e = some err ∧
        ("The transaction has finished.".data <:+ (GoErr.message err).data ∨
         "The database connection is closing.".data <:+ (GoErr.message err).data) := by
  cases e with
  | none => simp [IsTxnFinishedErr]
  | some err =>
    have hs : ∀ suf : String, hasSuffix (GoErr.message err) suf = true ↔
        suf.data <:+ (GoErr.message err).data := by
      intro suf
      simp [hasSuffix]
    simp only [Option.some.injEq, exists_eq_left']
    cases hc1 : hasSuffix (GoErr.message err) "The transaction has finished." with
    | true => simp [IsTxnFinishedErr, hc1, (hs _).mp hc1]
    | false =>
      cases hc2 : hasSuffix (GoErr.message err) "The database connection is closing." with
      | true => simp [IsTxnFinishedErr, hc1, hc2, (hs _).mp hc2]
      | false =>
        simp only [IsTxnFinishedErr, hc1, hc2, if_false, Bool.false_eq_true, false_iff]
        rintro (h1 | h2)
        · exact absurd ((hs _).mpr h1) (by simp [hc1])
        · exact absurd ((hs _).mpr h2) (by simp [hc2])

/-- Every `db.Transaction` call made by the `RetryTxn` loop passes exactly
the mode and names it was given. -/
theorem retryTxnLoop_txnCalls (mode : TransactionMode) (names : List String) :
    ∀ (s : List RetryAttempt) (r : RetryResult), retryTxnLoop mode names s = some r →
      ∀ c ∈ r.txnCalls, c = (mode, names) := by
  intro s
  induction s with
  | nil => intro r h; simp [retryTxnLoop] at h
  | cons a rest ih =>
    intro r h c hc
    rw [retryTxnLoop] at h
    split at h
    · rcases Option.some.inj h with rfl
      simpa using hc
    · split at h
      · split at h
        · exact absurd h (by simp)
        · rcases Option.some.inj h with rfl
          rcases List.mem_cons.mp hc with rfl | hmem
          · rfl
          · exact ih _ (by assumption) c hmem
      · split at h
        · rcases Option.some.inj h with rfl
          simpa using hc
        · rcases Option.some.inj h with rfl
          simpa using hc

/-- C2: each `RetryTxn` attempt opens a fresh transaction over exactly the
given mode and store names; a unit-of-work failure matching the recoverable
transaction-finished classification discards the attempt and starts a new
one; any other non-nil error aborts the transaction and is returned
unchanged; on success an explicit commit is attempted and a commit error
matching the recoverable classification is treated as success (nil). -/
theorem retryTxn_contract (mode : TransactionMode) (name : String) (names : List String)
    (a : RetryAttempt) (rest : List RetryAttempt) :
    (∀ r, RetryTxn mode name names (a :: rest) = some r →
      ∀ c ∈ r.txnCalls, c = (mode, name :: names)) ∧
    (a.txnErr = none → IsTxnFinishedErr a.fnErr = true →
      RetryTxn mode name names (a :: rest) =
        (RetryTxn mode name names rest).map
          (fun r => ⟨r.ret, r.fnRuns + 1, (mode, name :: names) :: r.txnCalls,
                     r.abortCalled, r.commitCalled⟩)) ∧
    (∀ e, a.txnErr = none → a.fnErr = some e → IsTxnFinishedErr (some e) = false →
      RetryTxn mode name names (a :: rest) =
        some ⟨some e, 1, [(mode, name :: names)], true, false⟩) ∧
    (a.txnErr = none → a.fnErr = none →
      RetryTxn mode name names (a :: rest) =
        some ⟨if IsTxnFinishedErr a.commitErr then none else a.commitErr,
              1, [(mode, name :: names)], false, true⟩ ∧
      (IsTxnFinishedErr a.commitErr = true →
        RetryTxn mode name names (a :: rest) =
          some ⟨none, 1, [(mode, name :: names)], false, true⟩)) := by
  refine ⟨fun r h => retryTxnLoop_txnCalls mode (name :: names) _ r h, ?_, ?_, ?_⟩
  · intro ht hf
    simp only [RetryTxn, retryTxnLoop, ht, hf, if_true]
    cases retryTxnLoop mode (name :: names) rest <;> rfl
  · intro e ht hf hnr
    simp [RetryTxn, retryTxnLoop, ht, hf, hnr]
  · intro ht hf
    constructor
    · simp [RetryTxn, retryTxnLoop, ht, hf, isTxnFinishedErr_nil]
    · intro hc
      simp [RetryTxn, retryTxnLoop, ht, hf, hc, isTxnFinishedErr_nil]

/-- Concrete instantiation of the `RetryTxn` contract: a recoverable first
attempt is retried, then a plain error is aborted and returned unchanged. -/
theorem retryTxn_contract_witness :
    RetryTxn .readWrite "mystore" []
        [⟨none, some (.mk "some error"), none⟩] =
      some ⟨some (.mk "some error"), 1, [(.readWrite, ["mystore"])], true, false⟩ :=
  (retryTxn_contract .readWrite "mystore" [] ⟨none, some (.mk "some error"), none⟩ []).2.2.1
    (.mk "some error") rfl rfl (by decide)

/-- C5: a callback returning the distinguished `ErrCursorStopIter` stops
iteration immediately and normally — `Iter` returns nil, no advancement is
issued, and the callback has run exactly once regardless of how much more
the host could have yielded; a null cursor from the host likewise makes
`Iter` return nil without invoking the callback. -/
theorem cursorIter_stop_and_exhaustion (s : IterStep) (rest : List IterStep) :
    (s.awaited = .ok (some ()) → (s.cb wrapCursor).2 = some .stopIter →
      cursorIter (s :: rest) = some ⟨none, 1, 0⟩) ∧
    (s.awaited = .ok none → cursorIter (s :: rest) = some ⟨none, 0, 0⟩) := by
  constructor
  · intro ha hcb
    rcases hp : s.cb wrapCursor with ⟨c1, cbErr⟩
    rw [hp] at hcb
    simp only at hcb
    subst hcb
    simp [cursorIter, ha, hp]
  · intro ha
    simp [cursorIter, ha]

/-- Concrete instantiation: a stop-signalling callback runs exactly once
even with more host positions available, and a null cursor yields nil. -/
theorem cursorIter_stop_and_exhaustion_witness :
    cursorIter [⟨.ok (some ()), fun c => (c, some .stopIter), none⟩,
                ⟨.ok (some ()), fun c => (c, none), none⟩] = some ⟨none, 1, 0⟩ ∧
    cursorIter [⟨.ok none, fun c => (c, none), none⟩] = some ⟨none, 0, 0⟩ :=
  ⟨(cursorIter_stop_and_exhaustion ⟨.ok (some ()), fun c => (c, some .stopIter), none⟩
      [⟨.ok (some ()), fun c => (c, none), none⟩]).1 rfl rfl,
   (cursorIter_stop_and_exhaustion ⟨.ok none, fun c => (c, none), none⟩ []).2 rfl⟩

/-- C4: the four movement methods mark the cursor as iterated; after a
successful callback that did not move the cursor the loop issues exactly
one default `Continue` before awaiting the next position; after a callback
that moved the cursor, or returned an error, no implicit advance is issued,
and a non-stop callback error ends iteration and is propagated. -/
theorem cursorIter_default_advance_policy (s : IterStep) (rest : List IterStep) :
    ((∀ c n h, (Cursor.Advance c n h).1.iterated = true) ∧
     (∀ c h, (Cursor.Continue c h).1.iterated = true) ∧
     (∀ c k h, (Cursor.ContinueKey c k h).1.iterated = true) ∧
     (∀ c k pk h, (Cursor.ContinuePrimaryKey c k pk h).1.iterated = true)) ∧
    (s.awaited = .ok (some ()) → (s.cb wrapCursor).2 = none →
      (s.cb wrapCursor).1.iterated = false → s.contErr = none →
      cursorIter (s :: rest) =
        (cursorIter rest).map (fun r => ⟨r.ret, r.cbCalls + 1, r.autoContinues + 1⟩)) ∧
    (s.awaited = .ok (some ()) → (s.cb wrapCursor).2 = none →
      (s.cb wrapCursor).1.iterated = true →
      cursorIter (s :: rest) =
        (cursorIter rest).map (fun r => ⟨r.ret, r.cbCalls + 1, r.autoContinues⟩)) ∧
    (∀ e, s.awaited = .ok (some ()) → (s.cb wrapCursor).2 = some e → e ≠ .stopIter →
      cursorIter (s :: rest) = some ⟨some e, 1, 0⟩) := by
  refine ⟨⟨fun c n h => rfl, fun c h => rfl, fun c k h => rfl, fun c k pk h => rfl⟩, ?_, ?_, ?_⟩
  · intro ha hcb hit hce
    rcases hp : s.cb wrapCursor with ⟨c1, cbErr⟩
    rw [hp] at hcb hit
    simp only at hcb hit
    subst hcb
    simp only [cursorIter, ha, hp, hit, Cursor.Continue, hce, Bool.not_false, if_true]
    cases cursorIter rest <;> rfl
  · intro ha hcb hit
    rcases hp : s.cb wrapCursor with ⟨c1, cbErr⟩
    rw [hp] at hcb hit
    simp only at hcb hit
    subst hcb
    simp only [cursorIter, ha, hp, hit, Bool.not_true, if_false]
    cases cursorIter rest <;> rfl
  · intro e ha hcb hne
    rcases hp : s.cb wrapCursor with ⟨c1, cbErr⟩
    rw [hp] at hcb
    simp only at hcb
    subst hcb
    simp [cursorIter, ha, hp, hne]

/-- Concrete instantiation: a callback that only reads still advances the
traversal by exactly one implicit `Continue` per step. -/
theorem cursorIter_default_advance_policy_witness :
    cursorIter [⟨.ok (some ()), fun c => (c, none), none⟩,
                ⟨.ok none, fun c => (c, none), none⟩] = some ⟨none, 1, 1⟩ := by
  have h := (cursorIter_default_advance_policy ⟨.ok (some ()), fun c => (c, none), none⟩
    [⟨.ok none, fun c => (c, none), none⟩]).2.1 rfl rfl rfl rfl
  rw [h]
  rfl

/-- C10: when the implicit default `Continue` itself fails, iteration stops
with that error and the loop does not await any further cursor position
(the outcome is independent of the rest of the host script). -/
theorem cursorIter_failed_default_advance (s : IterStep) (rest rest' : List IterStep)
    (e : GoErr) :
    s.awaited = .ok (some ()) → (s.cb wrapCursor).2 = none →
    (s.cb wrapCursor).1.iterated = false → s.contErr = some e →
    cursorIter (s :: rest) = some ⟨some e, 1, 1⟩ ∧
    cursorIter (s :: rest) = cursorIter (s :: rest') := by
  intro ha hcb hit hce
  rcases hp : s.cb wrapCursor with ⟨c1, cbErr⟩
  rw [hp] at hcb hit
  simp only at hcb hit
  subst hcb
  constructor
  · simp [cursorIter, ha, hp, hit, Cursor.Continue, hce]
  · simp [cursorIter, ha, hp, hit, Cursor.Continue, hce]

/-- Concrete instantiation: a failing implicit advance returns its error
after one callback invocation, ignoring any further host positions. -/
theorem cursorIter_failed_default_advance_witness :
    cursorIter [⟨.ok (some ()), fun c => (c, none), some (.mk "continue failed")⟩] =
      some ⟨some (.mk "continue failed"), 1, 1⟩ ∧
    cursorIter [⟨.ok (some ()), fun c => (c, none), some (.mk "continue failed")⟩] =
      cursorIter [⟨.ok (some ()), fun c => (c, none), some (.mk "continue failed")⟩,
                  ⟨.ok (some ()), fun c => (c, none), none⟩] :=
  cursorIter_failed_default_advance
    ⟨.ok (some ()), fun c => (c, none), some (.mk "continue failed")⟩
    [] [⟨.ok (some ()), fun c => (c, none), none⟩]
    (.mk "continue failed") rfl rfl rfl rfl

/-- C7: `Abort` and `Commit` on a `DurableTransaction` with no live
transaction return the nothing-happened indicators `(false, nil)` and `nil`
and never an error; `Abort` on a live transaction whose host abort fails
with the recoverable classification also returns `(false, nil)`; `Commit`
swallows exactly the recoverable classification and propagates any other
commit error. -/
theorem durableTxn_abort_commit_laws (t : DurableTransaction) (h : GoError) (tx : Txn) :
    (t.txn = none → t.Abort h = ((false, none), t) ∧ t.Commit h = (none, t)) ∧
    (t.txn = some tx → IsTxnFinishedErr h = true → (t.Abort h).1 = (false, none)) ∧
    (t.txn = some tx → IsTxnFinishedErr h = true → (t.Commit h).1 = none) ∧
    (t.txn = some tx → IsTxnFinishedErr h = false → (t.Commit h).1 = h) := by
  refine ⟨?_, ?_, ?_, ?_⟩
  · intro hn
    exact ⟨by simp [DurableTransaction.Abort, hn], by simp [DurableTransaction.Commit, hn]⟩
  · intro hs hr
    cases h with
    | none => simp [isTxnFinishedErr_nil] at hr
    | some e => simp [DurableTransaction.Abort, hs, hr]
  · intro hs hr
    simp [DurableTransaction.Commit, hs, hr]
  · intro hs hr
    simp [DurableTransaction.Commit, hs, hr]

/-- A live single-store durable transaction used as a concrete test state. -/
def exTxn : Txn :=
  ⟨1, .readWrite, ["items"]⟩

/-- The wrapper bound to `exTxn`. -/
def exStore : DurableObjectStore :=
  ⟨0, "items", ⟨1, "items"⟩⟩

/-- A durable transaction whose live transaction is present. -/
def exLive : DurableTransaction :=
  ⟨.readWrite, ["items"], some exTxn, [("items", exStore)]⟩

/-- A durable transaction whose live transaction is absent. -/
def exAbsent : DurableTransaction :=
  ⟨.readWrite, ["items"], none, [("items", exStore)]⟩

/-- Concrete instantiation of the abort/commit no-op and swallowing laws. -/
theorem durableTxn_abort_commit_laws_witness :
    (exAbsent.Abort none = ((false, none), exAbsent) ∧
      exAbsent.Commit none = (none, exAbsent)) ∧
    (exLive.Abort (some (.mk "The transaction has finished."))).1 = (false, none) ∧
    (exLive.Commit (some (.mk "boom"))).1 = some (.mk "boom") :=
  ⟨(durableTxn_abort_commit_laws exAbsent none exTxn).1 rfl,
   (durableTxn_abort_commit_laws exLive (some (.mk "The transaction has finished."))
      exTxn).2.1 rfl (by decide),
   (durableTxn_abort_commit_laws exLive (some (.mk "boom")) exTxn).2.2.2 rfl (by decide)⟩

/-- `rebindStores` changes only the `store` field of each wrapper: the keys,
wrapper identities and wrapper names survive unchanged, in order. -/
theorem rebindStores_wrapper_identities (txn : Txn) :
    ∀ l : List (String × DurableObjectStore),
      (rebindStores txn l).2.map (fun p => (p.1, p.2.wid, p.2.name)) =
        l.map (fun p => (p.1, p.2.wid, p.2.name)) := by
  intro l
  induction l with
  | nil => simp [rebindStores]
  | cons p rest ih =>
    rcases p with ⟨n, w⟩
    rw [rebindStores]
    cases hos : Txn.objectStore txn n with
    | error e => simp
    | ok s =>
      rcases hr : rebindStores txn rest with ⟨err, rest'⟩
      rw [hr] at ih
      simp only at ih ⊢
      simp [ih]

/-- `rebindStores` preserves each name's wrapper identity under lookup. -/
theorem rebindStores_lookup (txn : Txn) (name : String) :
    ∀ l : List (String × DurableObjectStore),
      ((rebindStores txn l).2.lookup name).map (fun w => (w.wid, w.name)) =
        (l.lookup name).map (fun w => (w.wid, w.name)) := by
  intro l
  induction l with
  | nil => simp [rebindStores]
  | cons p rest ih =>
    rcases p with ⟨n, w⟩
    rw [rebindStores]
    cases hos : Txn.objectStore txn n with
    | error e => simp
    | ok s =>
      rcases hr : rebindStores txn rest with ⟨err, rest'⟩
      rw [hr] at ih
      simp only at ih ⊢
      by_cases hn : name == n
      · simp [List.lookup, hn]
      · simp [List.lookup, hn, ih]

/-- C8: `ensureTransaction` never replaces the entries of the name-to-wrapper
map — it swaps each wrapper's internal store handle in place — so the
wrapper `GetObjectStore` returns for any constructed name keeps the same
identity across any number of underlying transaction replacements. -/
theorem ensureTransaction_preserves_wrappers (t : DurableTransaction)
    (o : Except GoErr Nat) (name : String) :
    ((ensureTransaction t o).2.objectStores.map (fun p => (p.1, p.2.wid, p.2.name)) =
      t.objectStores.map (fun p => (p.1, p.2.wid, p.2.name))) ∧
    (Except.map (fun w => (w.wid, w.name)) ((ensureTransaction t o).2.GetObjectStore name) =
      Except.map (fun w => (w.wid, w.name)) (t.GetObjectStore name)) := by
  cases ht : t.txn with
  | some tx => simp [ensureTransaction, ht]
  | none =>
    cases o with
    | error e => simp [ensureTransaction, ht]
    | ok newId =>
      rcases hr : rebindStores ⟨newId, t.txnMode, t.objectStoreNames⟩ t.objectStores
        with ⟨err, stores'⟩
      have hmap := rebindStores_wrapper_identities ⟨newId, t.txnMode, t.objectStoreNames⟩
        t.objectStores
      have hlook := rebindStores_lookup ⟨newId, t.txnMode, t.objectStoreNames⟩ name
        t.objectStores
      rw [hr] at hmap hlook
      simp only at hmap hlook
      constructor
      · simpa [ensureTransaction, ht, hr] using hmap
      · simp only [ensureTransaction, ht, hr, DurableTransaction.GetObjectStore]
        cases hl : stores'.lookup name with
        | none =>
          cases hl' : t.objectStores.lookup name with
          | none => rfl
          | some w => rw [hl, hl'] at hlook; simp at hlook
        | some w =>
          cases hl' : t.objectStores.lookup name with
          | none => rw [hl, hl'] at hlook; simp at hlook
          | some w' =>
            rw [hl, hl'] at hlook
            simpa [Except.map] using hlook

/-- C9: a durable data operation that fails with a non-recoverable error
leaves the live transaction and its store bindings untouched (the returned
state is exactly the input state, so the next operation reuses the same
live transaction), and likewise on success; only a failure matching the
recoverable classification clears the live transaction before retrying. -/
theorem runWithRetry_frame (t : DurableTransaction) (tx : Txn) (a : DurableAttempt)
    (rest : List DurableAttempt) :
    t.txn = some tx →
    ((∀ e, a.fnErr = some e → IsTxnFinishedErr (some e) = false →
       runWithRetry t (a :: rest) = some (some e, t)) ∧
     (a.fnErr = none → runWithRetry t (a :: rest) = some (none, t)) ∧
     (∀ e, a.fnErr = some e → IsTxnFinishedErr (some e) = true →
       runWithRetry t (a :: rest) = runWithRetry { t with txn := none } rest)) := by
  intro ht
  have hens : ensureTransaction t a.txnOutcome = (none, t) := by
    simp [ensureTransaction, ht]
  refine ⟨?_, ?_, ?_⟩
  · intro e hf hnr
    simp [runWithRetry, hens, hf, hnr]
  · intro hf
    simp [runWithRetry, hens, hf]
  · intro e hf hr
    simp [runWithRetry, hens, hf, hr]

/-- Concrete instantiation of the frame property: after a non-recoverable
failure the durable state is bit-for-bit the input state, still live. -/
theorem runWithRetry_frame_witness :
    runWithRetry exLive [⟨.ok 7, some (.mk "constraint violated")⟩] =
      some (some (.mk "constraint violated"), exLive) ∧
    exLive.txn = some exTxn :=
  ⟨((runWithRetry_frame exLive exTxn ⟨.ok 7, some (.mk "constraint violated")⟩ []) rfl).1
      (.mk "constraint violated") rfl (by decide), rfl⟩

/-- A transaction-creation outcome that did not fail. -/
def ExceptIsOk : Except GoErr Nat → Bool
  | .ok _ => true
  | .error _ => false

/-- Every wrapper name of `t` is among its fixed store names (established by
`NewDurableTransaction`, which keys the map by exactly those names). -/
@[reducible] def storesCovered (t : DurableTransaction) : Prop :=
  ∀ p ∈ t.objectStores, p.1 ∈ t.objectStoreNames

/-- When every wrapper name is in the new transaction's scope, rebinding
succeeds and swaps every wrapper's store handle to the new transaction. -/
theorem rebindStores_covered_ok (txn : Txn) :
    ∀ l : List (String × DurableObjectStore), (∀ p ∈ l, p.1 ∈ txn.names) →
      rebindStores txn l =
        (none, l.map (fun p => (p.1, { p.2 with store := ⟨txn.id, p.1⟩ }))) := by
  intro l
  induction l with
  | nil => intro _; simp [rebindStores]
  | cons p rest ih =>
    intro hcov
    rcases p with ⟨n, w⟩
    have hn : n ∈ txn.names := hcov (n, w) (by simp)
    rw [rebindStores]
    simp only [Txn.objectStore, hn, if_true, ih (fun q hq => hcov q (List.mem_cons_of_mem _ hq))]
    simp

/-- `ensureTransaction` on an absent live transaction with a successful
creation outcome: the new transaction covers exactly the durable scope's
full store-name list and every wrapper is rebound to it. -/
theorem ensureTransaction_recreates (t : DurableTransaction) (newId : Nat) :
    t.txn = none → storesCovered t →
    ensureTransaction t (.ok newId) =
      (none, { t with
        txn := some ⟨newId, t.txnMode, t.objectStoreNames⟩,
        objectStores := t.objectStores.map
          (fun p => (p.1, { p.2 with store := ⟨newId, p.1⟩ })) }) := by
  intro ht hcov
  simp only [ensureTransaction, ht]
  rw [rebindStores_covered_ok ⟨newId, t.txnMode, t.objectStoreNames⟩ t.objectStores hcov]

/-- Under clean transaction creation, `runWithRetry` never hands a
recoverable transaction-finished error back to its caller. -/
theorem runWithRetry_no_recoverable (s : List DurableAttempt) :
    ∀ t : DurableTransaction, (∀ a ∈ s, ExceptIsOk a.txnOutcome = true) → storesCovered t →
      ∀ ret t', runWithRetry t s = some (ret, t') → IsTxnFinishedErr ret = false := by
  induction s with
  | nil => intro t _ _ ret t' h; simp [runWithRetry] at h
  | cons a rest ih =>
    intro t hok hcov ret t' h
    have hokrest : ∀ b ∈ rest, ExceptIsOk b.txnOutcome = true :=
      fun b hb => hok b (List.mem_cons_of_mem _ hb)
    cases ht : t.txn with
    | some tx =>
      have hens : ensureTransaction t a.txnOutcome = (none, t) := by
        simp [ensureTransaction, ht]
      cases hf : a.fnErr with
      | none =>
        simp only [runWithRetry, hens, hf, Option.some.injEq, Prod.mk.injEq] at h
        rw [← h.1]
        exact isTxnFinishedErr_nil
      | some ferr =>
        by_cases hrec : IsTxnFinishedErr (some ferr) = true
        · simp only [runWithRetry, hens, hf, hrec, if_true] at h
          exact ih { t with txn := none } hokrest (fun p hp => hcov p hp) ret t' h
        · simp only [runWithRetry, hens, hf] at h
          rw [if_neg hrec] at h
          simp only [Option.some.injEq, Prod.mk.injEq] at h
          rw [← h.1]
          simpa using hrec
    | none =>
      have hoka := hok a (List.mem_cons_self a rest)
      cases hto : a.txnOutcome with
      | error e => rw [hto] at hoka; simp [ExceptIsOk] at hoka
      | ok newId =>
        have hens := ensureTransaction_recreates t newId ht hcov
        have hcov1 : storesCovered { t with
            txn := some ⟨newId, t.txnMode, t.objectStoreNames⟩,
            objectStores := t.objectStores.map
              (fun p => (p.1, { p.2 with store := ⟨newId, p.1⟩ })) } := by
          intro p hp
          simp only [List.mem_map] at hp
          rcases hp with ⟨q, hq, rfl⟩
          exact hcov q hq
        cases hf : a.fnErr with
        | none =>
          simp only [runWithRetry, hto, hens, hf, Option.some.injEq, Prod.mk.injEq] at h
          rw [← h.1]
          exact isTxnFinishedErr_nil
        | some ferr =>
          by_cases hrec : IsTxnFinishedErr (some ferr) = true
          · simp only [runWithRetry, hto, hens, hf, hrec, if_true] at h
            exact ih { t with
                txn := none,
                objectStores := t.objectStores.map
                  (fun p => (p.1, { p.2 with store := ⟨newId, p.1⟩ })) }
              hokrest (fun p hp => hcov1 p hp) ret t' h
          · simp only [runWithRetry, hto, hens, hf] at h
            rw [if_neg hrec] at h
            simp only [Option.some.injEq, Prod.mk.injEq] at h
            rw [← h.1]
            simpa using hrec

/-- `DurableObjectStore.Get` is the `runWithRetry` combinator applied to
its request/await closure: the returned error and final state coincide. -/
theorem durableGetLoop_runWithRetry (gs : List GetAttempt) :
    ∀ (t : DurableTransaction) (v : Option JSValue),
      (durableGetLoop t v gs).map (fun r => (r.1.2, r.2)) =
        runWithRetry t (gs.map (fun g => ⟨g.txnOutcome, (getFnResult g).1⟩)) := by
  induction gs with
  | nil => intro t v; simp [durableGetLoop, runWithRetry]
  | cons g rest ih =>
    intro t v
    rcases he : ensureTransaction t g.txnOutcome with ⟨ee, t1⟩
    rcases hg : getFnResult g with ⟨ferr, v'⟩
    cases ee with
    | some e => simp [durableGetLoop, runWithRetry, he]
    | none =>
      cases ferr with
      | none => simp [durableGetLoop, runWithRetry, he, hg]
      | some f =>
        by_cases hrec : IsTxnFinishedErr (some f) = true
        · simp [durableGetLoop, runWithRetry, he, hg, hrec, ih]
        · simp [durableGetLoop, runWithRetry, he, hg, hrec]

/-- `DurableObjectStore.Get` never hands a recoverable transaction-finished
error back to its caller when transaction creation is clean. -/
theorem durableGet_no_recoverable (gs : List GetAttempt) (t : DurableTransaction)
    (hok : ∀ g ∈ gs, ExceptIsOk g.txnOutcome = true) (hcov : storesCovered t)
    (v : Option JSValue) (ret : GoError) (t' : DurableTransaction)
    (h : DurableObjectStore.Get t gs = some ((v, ret), t')) :
    IsTxnFinishedErr ret = false := by
  have hok' : ∀ a ∈ gs.map (fun g => (⟨g.txnOutcome, (getFnResult g).1⟩ : DurableAttempt)),
      ExceptIsOk a.txnOutcome = true := by
    intro a ha
    rcases List.mem_map.mp ha with ⟨g, hg, rfl⟩
    exact hok g hg
  have hrun := durableGetLoop_runWithRetry gs t none
  rw [DurableObjectStore.Get] at h
  rw [h] at hrun
  have hr : runWithRetry t
      (gs.map (fun g => (⟨g.txnOutcome, (getFnResult g).1⟩ : DurableAttempt))) =
      some (ret, t') := by
    simpa using hrun.symm
  exact runWithRetry_no_recoverable _ t hok' hcov ret t' hr

/-- C1: a Durable Scope data operation whose host call or awaited result
fails with the recoverable transaction-finished classification clears the
live transaction and re-runs the entire operation from the start; the
ensure step recreates the transaction over all of the scope's store names
and rebinds every wrapper to it; and under clean transaction creation the
caller receives only the successful result or a non-recoverable error —
the recoverable-finish error is never returned. -/
theorem durable_data_op_retry (t tr : DurableTransaction) (tx : Txn) (newId : Nat)
    (g : GetAttempt) (grest gs : List GetAttempt) (s : List DurableAttempt) :
    (tr.txn = some tx → IsTxnFinishedErr (getFnResult g).1 = true →
      DurableObjectStore.Get tr (g :: grest) =
        DurableObjectStore.Get { tr with txn := none } grest) ∧
    (t.txn = none → storesCovered t →
      ensureTransaction t (.ok newId) =
        (none, { t with
          txn := some ⟨newId, t.txnMode, t.objectStoreNames⟩,
          objectStores := t.objectStores.map
            (fun p => (p.1, { p.2 with store := ⟨newId, p.1⟩ })) })) ∧
    ((∀ a ∈ gs, ExceptIsOk a.txnOutcome = true) → storesCovered t →
      ∀ v ret t', DurableObjectStore.Get t gs = some ((v, ret), t') →
        IsTxnFinishedErr ret = false) ∧
    (tr.txn = some tx → ∀ b brest, IsTxnFinishedErr b.fnErr = true →
      runWithRetry tr (b :: brest) = runWithRetry { tr with txn := none } brest) ∧
    ((∀ a ∈ s, ExceptIsOk a.txnOutcome = true) → storesCovered t →
      ∀ ret t', runWithRetry t s = some (ret, t') → IsTxnFinishedErr ret = false) := by
  refine ⟨?_, ?_, ?_, ?_, ?_⟩
  · intro ht hrec
    have hens : ensureTransaction tr g.txnOutcome = (none, tr) := by
      simp [ensureTransaction, ht]
    rcases hg : getFnResult g with ⟨ferr, v'⟩
    rw [hg] at hrec
    simp only at hrec
    cases ferr with
    | none => simp [isTxnFinishedErr_nil] at hrec
    | some f =>
      simp only [DurableObjectStore.Get, durableGetLoop, hens, hg, hrec, if_true]
  · exact ensureTransaction_recreates t newId
  · exact fun hok hcov v ret t' h => durableGet_no_recoverable gs t hok hcov v ret t' h
  · intro ht b brest hrec
    have hens : ensureTransaction tr b.txnOutcome = (none, tr) := by
      simp [ensureTransaction, ht]
    cases hbf : b.fnErr with
    | none => rw [hbf] at hrec; simp [isTxnFinishedErr_nil] at hrec
    | some f =>
      rw [hbf] at hrec
      simp [runWithRetry, hens, hbf, hrec]
  · exact fun hok hcov ret t' h => runWithRetry_no_recoverable s t hok hcov ret t' h

/-- Concrete instantiation of the durable retry contract: a recoverable
await failure re-runs the operation on a cleared scope, the ensure step of
the re-run rebinds the wrapper to the fresh transaction, and the eventual
result carries no recoverable error. -/
theorem durable_data_op_retry_witness :
    (DurableObjectStore.Get exLive
        [⟨.ok 9, none, .error (.mk "The transaction has finished.")⟩,
         ⟨.ok 2, none, .ok 42⟩] =
      DurableObjectStore.Get { exLive with txn := none } [⟨.ok 2, none, .ok 42⟩]) ∧
    (ensureTransaction exAbsent (.ok 2) =
      (none, { exAbsent with
        txn := some ⟨2, exAbsent.txnMode, exAbsent.objectStoreNames⟩,
        objectStores := exAbsent.objectStores.map
          (fun p => (p.1, { p.2 with store := ⟨2, p.1⟩ })) })) ∧
    IsTxnFinishedErr none = false ∧
    runWithRetry exLive [⟨.ok 4, some (.mk "w The database connection is closing.")⟩] =
      runWithRetry { exLive with txn := none } [] :=
  ⟨(durable_data_op_retry exAbsent exLive exTxn 2
      ⟨.ok 9, none, .error (.mk "The transaction has finished.")⟩
      [⟨.ok 2, none, .ok 42⟩] [] []).1 rfl (by decide),
   (durable_data_op_retry exAbsent exLive exTxn 2
      ⟨.ok 9, none, .error (.mk "The transaction has finished.")⟩
      [⟨.ok 2, none, .ok 42⟩] [] []).2.1 rfl (by decide),
   (durable_data_op_retry exAbsent exLive exTxn 2
      ⟨.ok 9, none, .error (.mk "The transaction has finished.")⟩
      [⟨.ok 2, none, .ok 42⟩] [⟨.ok 2, none, .ok 42⟩] []).2.2.1 (by decide) (by decide)
      (some 42) none
      ⟨.readWrite, ["items"], some ⟨2, .readWrite, ["items"]⟩,
        [("items", ⟨0, "items", ⟨2, "items"⟩⟩)]⟩ (by decide),
   (durable_data_op_retry exAbsent exLive exTxn 2
      ⟨.ok 9, none, .error (.mk "The transaction has finished.")⟩
      [⟨.ok 2, none, .ok 42⟩] [] []).2.2.2.1 rfl
      ⟨.ok 4, some (.mk "w The database connection is closing.")⟩ [] (by decide)⟩

/-- The spec's statement that a non-recoverable operation error is
propagated "after a best-effort abort of the active scope" fails for
Durable Scope data operations: at this concrete input the error is
propagated while the final state still holds the original live transaction
untouched — no abort occurred (an abort, cf. `DurableTransaction.Abort`,
always removes the live transaction from the state). -/
theorem durable_op_error_abort_counterexample :
    ∃ r, runWithRetry exLive [⟨.ok 5, some (.mk "unique constraint failed")⟩] = some r ∧
      r.1 = some (.mk "unique constraint failed") ∧ r.2 = exLive ∧ ¬ r.2.txn = none := by
  refine ⟨(some (.mk "unique constraint failed"), exLive), ?_, rfl, rfl, by decide⟩
  decide

/-- C6 amended: a host-reported non-recoverable operation error is
propagated to the caller unchanged by both retry mechanisms; `RetryTxn`
additionally performs a best-effort abort of its transaction, while a
Durable Scope data operation leaves its live transaction untouched (no
abort is attempted on this path). -/
theorem host_error_propagation (mode : TransactionMode) (name : String) (names : List String)
    (a : RetryAttempt) (rest : List RetryAttempt)
    (t : DurableTransaction) (tx : Txn) (b : DurableAttempt) (brest : List DurableAttempt)
    (e f : GoErr) :
    (a.txnErr = none → a.fnErr = some e → IsTxnFinishedErr (some e) = false →
      RetryTxn mode name names (a :: rest) =
        some ⟨some e, 1, [(mode, name :: names)], true, false⟩) ∧
    (t.txn = some tx → b.fnErr = some f → IsTxnFinishedErr (some f) = false →
      runWithRetry t (b :: brest) = some (some f, t)) := by
  constructor
  · intro ht hf hnr
    simp [RetryTxn, retryTxnLoop, ht, hf, hnr]
  · intro ht hf hnr
    have hens : ensureTransaction t b.txnOutcome = (none, t) := by
      simp [ensureTransaction, ht]
    simp [runWithRetry, hens, hf, hnr]

/-- Concrete instantiation of the amended propagation law for both
mechanisms, with the abort flag visible for `RetryTxn`. -/
theorem host_error_propagation_witness :
    (RetryTxn .readWrite "items" [] [⟨none, some (.mk "boom"), none⟩] =
      some ⟨some (.mk "boom"), 1, [(.readWrite, ["items"])], true, false⟩) ∧
    runWithRetry exLive [⟨.ok 3, some (.mk "boom")⟩] = some (some (.mk "boom"), exLive) :=
  ⟨(host_error_propagation .readWrite "items" [] ⟨none, some (.mk "boom"), none⟩ []
      exLive exTxn ⟨.ok 3, some (.mk "boom")⟩ [] (.mk "boom") (.mk "boom")).1
      rfl rfl (by decide),
   (host_error_propagation .readWrite "items" [] ⟨none, some (.mk "boom"), none⟩ []
      exLive exTxn ⟨.ok 3, some (.mk "boom")⟩ [] (.mk "boom") (.mk "boom")).2
      rfl rfl (by decide)⟩

end GoIndexedDB
